import Mathlib

/-!
Verification development for the structural-thinking analysis pipeline.

The definitions below are a shallow embedding of the TypeScript sources:
  - the scoring configuration (src/src/config/scoring.config.ts),
  - the pattern library (the patterns.config module),
  - the analysis engine (calculateClarity, calculateCompleteness,
    draftFromText, detectGaps in src/src/utils/validation.ts),
  - the MCP server variants of the same functions (the index module),
  - the LRU result cache (the caching module).

JavaScript numbers are modelled as exact rationals, strings as Lean
strings over their character lists, and wall-clock time as an explicit
integer parameter.  Regular-expression tests and match counts are
implemented by dedicated scanners over character lists; each scanner is
annotated with the regex it implements.
-/

set_option autoImplicit false

namespace ST

/-- JavaScript word character, the class matched by the backslash-w escape:
ASCII letters, digits and underscore. -/
def jsWordChar (c : Char) : Bool :=
  c.isAlpha || c.isDigit || c = '_'

/-- JavaScript whitespace as used by the sources (space, tab, newline,
carriage return, vertical tab, form feed). -/
def jsSpace (c : Char) : Bool :=
  c = ' ' || c = '\t' || c = '\n' || c = '\r' || c = '\x0b' || c = '\x0c'

/-- Case-insensitive character comparison via ASCII lowering, matching the
i flag of the source regexes on ASCII text. -/
def ciEq (a b : Char) : Bool :=
  a.toLower = b.toLower

/-- Does the pattern literal start the text, case-insensitively?  Used for
literal alternatives inside regexes. -/
def ciStarts : List Char → List Char → Bool
  | [], _ => true
  | _ :: _, [] => false
  | p :: ps, c :: cs => ciEq p c && ciStarts ps cs

/-- Word-boundary test between two adjacent positions: the backslash-b
assertion holds when exactly one side is a word character (absent sides
count as non-word). -/
def wordB (a b : Option Char) : Bool :=
  (a.any jsWordChar) != (b.any jsWordChar)

/-- Match a single literal alternative with a word boundary on each side,
as in a regex of shape backslash-b literal backslash-b, returning the
number of characters consumed. -/
def litMatchWB (lit : List Char) (prev : Option Char) (cs : List Char) : Option Nat :=
  match lit.head? with
  | none => none
  | some p0 =>
    if wordB prev (some p0) then
      if ciStarts lit cs then
        if wordB lit.getLast? (cs.drop lit.length).head? then some lit.length else none
      else none
    else none

/-- Try an ordered list of word-bounded literal alternatives at the current
position, taking the first that matches (regex alternation order). -/
def wbAltMatchAt (alts : List String) (prev : Option Char) (cs : List Char) : Option Nat :=
  alts.findSome? (fun a => litMatchWB a.toList prev cs)

/-- Match a literal alternative with no boundary assertions (a plain
case-insensitive substring alternative). -/
def litMatchCI (lit : List Char) (cs : List Char) : Option Nat :=
  if ciStarts lit cs then some lit.length else none

/-- Try an ordered list of unbounded literal alternatives at the current
position. -/
def ciAltMatchAt (alts : List String) (_prev : Option Char) (cs : List Char) : Option Nat :=
  alts.findSome? (fun a => litMatchCI a.toList cs)

/-- Existence scan: does the matcher succeed at some position of the text?
This is the semantics of RegExp.test on a stateless regex. -/
def scanTestAux (m : Option Char → List Char → Option Nat) :
    Option Char → List Char → Bool
  | _, [] => false
  | prev, c :: rest => (m prev (c :: rest)).isSome || scanTestAux m (some c) rest

/-- Counting scan with the advance-past-the-match discipline of a global
regex: after a match of length n the search resumes after its end.  The
skip counter carries how many characters of the current match are still
to be passed over. -/
def scanCountAux (m : Option Char → List Char → Option Nat) :
    Option Char → Nat → List Char → Nat
  | _, _, [] => 0
  | _prev, Nat.succ k, c :: rest => scanCountAux m (some c) k rest
  | prev, 0, c :: rest =>
    match m prev (c :: rest) with
    | some n => 1 + scanCountAux m (some c) (n - 1) rest
    | none => scanCountAux m (some c) 0 rest

/-- First match of the scanner, as start offset together with its length. -/
def scanFirstAux (m : Option Char → List Char → Option Nat) :
    Option Char → Nat → List Char → Option (Nat × Nat)
  | _, _, [] => none
  | prev, i, c :: rest =>
    match m prev (c :: rest) with
    | some n => some (i, n)
    | none => scanFirstAux m (some c) (i + 1) rest

/-- Test for a regex that is an alternation of word-bounded literals. -/
def wbTest (alts : List String) (text : String) : Bool :=
  scanTestAux (wbAltMatchAt alts) none text.toList

/-- Global match count for a regex that is an alternation of word-bounded
literals. -/
def wbCount (alts : List String) (text : String) : Nat :=
  scanCountAux (wbAltMatchAt alts) none 0 text.toList

/-- Test for a regex that is an alternation of plain literals with no
boundary assertions. -/
def ciTest (alts : List String) (text : String) : Bool :=
  scanTestAux (ciAltMatchAt alts) none text.toList

/-- JavaScript String.prototype.trim on a character list. -/
def jsTrim (cs : List Char) : List Char :=
  ((cs.dropWhile jsSpace).reverse.dropWhile jsSpace).reverse

/-- Word count as implemented by getWordCount: trim, split on whitespace
runs, count the non-empty pieces; equivalently the number of maximal
non-whitespace runs. -/
def countWordsAux : Bool → List Char → Nat
  | _, [] => 0
  | inWord, c :: rest =>
    if jsSpace c then countWordsAux false rest
    else (if inWord then 0 else 1) + countWordsAux true rest

/-- Implementation of getWordCount from the formatting helpers (the same
definition appears in the server module and in the unit tests). -/
def getWordCount (text : String) : Nat :=
  countWordsAux false text.toList

/-- Implementation of safeRound from the formatting helpers at the default
precision 2: Math.round(value * 100) / 100, with Math.round x equal to
the floor of x + 1/2 (written with the computable Rat.floor). -/
def safeRound (q : ℚ) : ℚ :=
  (((q * 100 + 1 / 2).floor : ℤ) : ℚ) / 100

/-- Clamp to the unit interval, Math.max(0, Math.min(1, x)). -/
def jsClamp01 (q : ℚ) : ℚ :=
  max 0 (min 1 q)

/-- Length of the run of ASCII digits at the head of the list. -/
def digitRun : List Char → Nat
  | [] => 0
  | c :: rest => if c.isDigit then digitRun rest + 1 else 0

/-- Length of the run of whitespace at the head of the list. -/
def spaceRun : List Char → Nat
  | [] => 0
  | c :: rest => if jsSpace c then spaceRun rest + 1 else 0

/-- Length of the run of hash signs at the head of the list. -/
def hashRun : List Char → Nat
  | [] => 0
  | c :: rest => if c = '#' then hashRun rest + 1 else 0

/-- Alternation of literals each followed by a trailing word boundary, with
alternatives tried in order. -/
def altTrailWB (alts : List String) (cs : List Char) : Option Nat :=
  alts.findSome? (fun a =>
    if ciStarts a.toList cs then
      if wordB a.toList.getLast? (cs.drop a.toList.length).head? then
        some a.toList.length
      else none
    else none)

/-- Alternation of plain literals tried in order, no boundary assertion. -/
def altPlain (alts : List String) (cs : List Char) : Option Nat :=
  alts.findSome? (fun a =>
    if ciStarts a.toList cs then some a.toList.length else none)

end ST

namespace ST

/-- Unit alternatives of the first measurement regex, in alternation order
with the greedy optional s expanded longest-first. -/
def measureUnits1 : List String :=
  ["words", "word", "characters", "character", "minutes", "minute", "hours",
   "hour", "days", "day", "%", "percent", "items", "item", "steps", "step"]

/-- Unit alternatives of the third measurement regex. -/
def measureUnits3 : List String :=
  ["words", "word", "items", "item", "steps", "step"]

/-- Matcher for the regex backslash-b digits, optional spaces, then a unit
word with a trailing word boundary (the first MEASUREMENT_PATTERNS entry,
also the single measurement regex of the server module). -/
def measure1At (prev : Option Char) (cs : List Char) : Option Nat :=
  match cs.head? with
  | none => none
  | some c0 =>
    if c0.isDigit && wordB prev (some c0) then
      let d := digitRun cs
      let s := spaceRun (cs.drop d)
      match altTrailWB measureUnits1 (cs.drop (d + s)) with
      | some u => some (d + s + u)
      | none => none
    else none

/-- Matcher for the regex backslash-b (approximately or about or roughly)
then one or more spaces then one or more digits (the second
MEASUREMENT_PATTERNS entry). -/
def measure2At (prev : Option Char) (cs : List Char) : Option Nat :=
  if wordB prev cs.head? then
    match altPlain (["approximately", "about", "roughly"]) cs with
    | some a =>
      let s := spaceRun (cs.drop a)
      if s = 0 then none
      else
        let d := digitRun (cs.drop (a + s))
        if d = 0 then none else some (a + s + d)
    | none => none
  else none

/-- Matcher for the regex backslash-b digits, a hyphen or en dash, digits,
optional spaces, then a unit word (the third MEASUREMENT_PATTERNS entry,
no trailing boundary). -/
def measure3At (prev : Option Char) (cs : List Char) : Option Nat :=
  match cs.head? with
  | none => none
  | some c0 =>
    if c0.isDigit && wordB prev (some c0) then
      let d := digitRun cs
      match (cs.drop d).head? with
      | some dash =>
        if dash = '-' || dash = '–' then
          let d2 := digitRun (cs.drop (d + 1))
          if d2 = 0 then none
          else
            let s := spaceRun (cs.drop (d + 1 + d2))
            match altPlain measureUnits3 (cs.drop (d + 1 + d2 + s)) with
            | some u => some (d + 1 + d2 + s + u)
            | none => none
        else none
      | none => none
    else none

/-- Matcher for the regex backslash-b (less than or more than or at least
or up to) then one or more spaces then one or more digits (the fourth
MEASUREMENT_PATTERNS entry). -/
def measure4At (prev : Option Char) (cs : List Char) : Option Nat :=
  if wordB prev cs.head? then
    match altPlain (["less than", "more than", "at least", "up to"]) cs with
    | some a =>
      let s := spaceRun (cs.drop a)
      if s = 0 then none
      else
        let d := digitRun (cs.drop (a + s))
        if d = 0 then none else some (a + s + d)
    | none => none
  else none

/-- Total number of matches of the four MEASUREMENT_PATTERNS regexes, as
summed by the engine clarity function via String.prototype.match. -/
def measurementCount (text : String) : Nat :=
  scanCountAux measure1At none 0 text.toList
    + scanCountAux measure2At none 0 text.toList
    + scanCountAux measure3At none 0 text.toList
    + scanCountAux measure4At none 0 text.toList

/-- Matcher for a bullet marker followed by whitespace, the first
STRUCTURE_PATTERNS regex. -/
def structBulletAt (_prev : Option Char) (cs : List Char) : Option Nat :=
  match cs with
  | [] => none
  | c :: rest =>
    if (c = '-' || c = '•' || c = '*') then
      let s := spaceRun rest
      if s = 0 then none else some (1 + s)
    else none

/-- Matcher for digits followed by a period and whitespace, the second
STRUCTURE_PATTERNS regex. -/
def structNumberedAt (_prev : Option Char) (cs : List Char) : Option Nat :=
  let d := digitRun cs
  if d = 0 then none
  else
    match (cs.drop d).head? with
    | some '.' =>
      let s := spaceRun (cs.drop (d + 1))
      if s = 0 then none else some (d + 1 + s)
    | _ => none

/-- Matcher for one to six hash signs followed by whitespace, the third
STRUCTURE_PATTERNS regex. -/
def structHeadingAt (_prev : Option Char) (cs : List Char) : Option Nat :=
  let h := hashRun cs
  if 1 ≤ h && h ≤ 6 then
    let s := spaceRun (cs.drop h)
    if s = 0 then none else some (h + s)
  else none

/-- Sequential-indicator alternatives of the fourth STRUCTURE_PATTERNS
regex. -/
def structSeqWords : List String :=
  ["first", "second", "third", "then", "next", "finally"]

/-- Vague-language pattern library (patterns.config VAGUE_WORDS, shared
verbatim by the server module), each regex expanded into its word-bounded
literal alternatives with greedy optional suffixes listed longest-first. -/
def VAGUE_WORDS : List (List String) :=
  [["optimised", "optimises", "optimized", "optimizes", "optimise", "optimize"],
   ["better"], ["quickly"], ["improved", "improves", "improve"], ["nice"],
   ["good"], ["clean"], ["efficient"], ["simple"], ["easy"], ["fast"],
   ["smooth"], ["pretty"], ["quite"], ["very"], ["really"], ["somewhat"],
   ["rather"], ["basically"], ["obviously"], ["clearly"]]

/-- Clarity-indicator pattern library (patterns.config CLARITY_INDICATORS). -/
def CLARITY_INDICATORS : List (List String) :=
  [["specifically"], ["exactly"], ["must"], ["shall"], ["required"],
   ["mandatory"], ["will"], ["should"], ["precisely"], ["explicitly"],
   ["defined as"], ["measured by"], ["strictly"], ["compulsory"]]

/-- Completeness-indicator pattern library (patterns.config
COMPLETENESS_INDICATORS). -/
def COMPLETENESS_INDICATORS : List (List String) :=
  [["input"], ["output"], ["format"], ["constraints", "constraint"],
   ["limits", "limit"], ["steps", "step"], ["process"], ["methods", "method"],
   ["workflows", "workflow"], ["pipelines", "pipeline"],
   ["requirements", "requirement"], ["specifications", "specification"],
   ["parameters", "parameter"], ["criteria"]]

/-- Concrete-verb pattern library (patterns.config CONCRETE_VERBS). -/
def CONCRETE_VERBS : List (List String) :=
  [["created", "creates", "create"], ["generated", "generates", "generate"],
   ["writen", "writes", "write"], ["analyzed", "analyzes", "analyze"],
   ["compared", "compares", "compare"], ["lists", "list"],
   ["summarised", "summarises", "summarized", "summarizes", "summarise",
    "summarize"],
   ["extracts", "extract"], ["identify"],
   ["calculated", "calculates", "calculate"], ["implements", "implement"],
   ["designs", "design"]]

/-- Question-word alternatives of patterns.config QUESTION_WORDS, a single
global regex whose matches are counted. -/
def QUESTION_WORDS : List String :=
  ["what", "how", "why", "when", "where", "which", "who"]

/-- Domain-specific terminology patterns (patterns.config DOMAIN_PATTERNS),
three global regexes per domain, matches counted.  Alternatives are kept
in declaration order; matching is case-insensitive. -/
def getDomainPatterns (domain : Option String) : List (List String) :=
  match domain with
  | some d =>
    if d = "code" then
      [["function", "class", "method", "variable", "api", "endpoint",
        "database", "framework"],
       ["implement", "deploy", "debug", "test", "refactor", "optimize"],
       ["typescript", "javascript", "python", "react", "node.js", "sql"]]
    else if d = "docs" then
      [["documentation", "guide", "tutorial", "reference", "manual", "faq"],
       ["section", "chapter", "appendix", "glossary", "index"],
       ["explain", "describe", "outline", "summarize"]]
    else if d = "product" then
      [["feature", "requirement", "user story", "acceptance criteria", "mvp"],
       ["stakeholder", "customer", "user", "persona", "journey"],
       ["prioritize", "roadmap", "milestone", "release", "sprint"]]
    else if d = "research" then
      [["hypothesis", "methodology", "analysis", "findings", "conclusion"],
       ["data", "sample", "statistical", "correlation", "significance"],
       ["study", "experiment", "survey", "interview", "observation"]]
    else []
  | none => []

/-- Split on runs of sentence terminators, the semantics of splitting a
string on the regex class period, exclamation mark or question mark
repeated one or more times. -/
def splitSentences : List Char → List (List Char)
  | [] => [[]]
  | c :: rest =>
    let r := splitSentences rest
    if c = '.' || c = '!' || c = '?' then
      match rest with
      | d :: _ =>
        if d = '.' || d = '!' || d = '?' then r else [] :: r
      | [] => [] :: r
    else
      match r with
      | h :: t => (c :: h) :: t
      | [] => [[c]]

/-- Split on the newline character, the semantics of String.prototype.split
with a plain newline separator. -/
def splitNL : List Char → List (List Char)
  | [] => [[]]
  | c :: rest =>
    if c = '\n' then [] :: splitNL rest
    else
      match splitNL rest with
      | h :: t => (c :: h) :: t
      | [] => [[c]]

/-- Drop one trailing carriage return; composing with splitNL yields the
semantics of splitting on the regex carriage-return-optional newline. -/
def stripCR (l : List Char) : List Char :=
  if l.getLast? = some '\r' then l.dropLast else l

/-- Try to match two to four digits, optional spaces, then the literal word
(the regex of the word-limit extraction), with the digit count tried
greedily from four down to two; returns the captured digits. -/
def wordLimitTryK (k : Nat) (cs : List Char) : Option (List Char) :=
  let ds := cs.take k
  if ds.length = k && ds.all (·.isDigit) then
    let s := spaceRun (cs.drop k)
    if ciStarts ("word").toList (cs.drop (k + s)) then some ds else none
  else none

/-- Leftmost match of the word-limit regex over the whole text, returning
the captured digit group. -/
def findWordLimit : List Char → Option (List Char)
  | [] => none
  | c :: rest =>
    match (wordLimitTryK 4 (c :: rest)).orElse
        (fun _ => (wordLimitTryK 3 (c :: rest)).orElse
          (fun _ => wordLimitTryK 2 (c :: rest))) with
    | some ds => some ds
    | none => findWordLimit rest

/-- Clarity scoring parameters (scoring.config ClarityConfig).  Lengths and
thresholds that the code compares against character or word counts are
kept rational because the compared quantities (average sentence length)
are rational. -/
structure ClarityConfig where
  baseScore : ℚ
  proportionalScoring : Bool
  vagueWordPenalty : ℚ
  maxVagueWordPenalty : ℚ
  clarityIndicatorBonus : ℚ
  maxClarityIndicatorBonus : ℚ
  measurementBonus : ℚ
  maxMeasurementBonus : ℚ
  verbBonus : ℚ
  maxVerbBonus : ℚ
  minSentenceLength : Nat
  sentenceLengthThreshold1 : ℚ
  sentenceLengthThreshold2 : ℚ
  longSentencePenalty1 : ℚ
  longSentencePenalty2 : ℚ
  structureBonus : ℚ
  deriving DecidableEq

/-- Completeness scoring parameters (scoring.config CompletenessConfig). -/
structure CompletenessConfig where
  baseScore : ℚ
  titleBonus : ℚ
  titleMinLength : Nat
  instructionsBonus : ℚ
  constraintsBonus : ℚ
  domainBonus : ℚ
  formatBonus : ℚ
  sectionsBonus : ℚ
  maxSectionsBonus : ℚ
  completenessIndicatorBonus : ℚ
  maxCompletenessIndicatorBonus : ℚ
  exampleBonus : ℚ
  depthBonus1 : ℚ
  depthBonus2 : ℚ
  depthBonus3 : ℚ
  depthThreshold1 : Nat
  depthThreshold2 : Nat
  depthThreshold3 : Nat
  shortInstructionPenalty : ℚ
  shortInstructionThreshold : Nat
  deriving DecidableEq

/-- Input validation parameters (scoring.config ValidationConfig). -/
structure ValidationConfig where
  minPromptLength : Nat
  maxPromptLength : Nat
  roundingPrecision : Nat
  deriving DecidableEq

/-- Full scoring configuration (scoring.config ScoringConfig). -/
structure ScoringConfig where
  clarity : ClarityConfig
  completeness : CompletenessConfig
  validation : ValidationConfig
  deriving DecidableEq

/-- Default scoring configuration (scoring.config
DEFAULT_SCORING_CONFIG). -/
def DEFAULT_SCORING_CONFIG : ScoringConfig :=
  { clarity :=
      { baseScore := 0.5
        proportionalScoring := true
        vagueWordPenalty := 0.05
        maxVagueWordPenalty := 0.25
        clarityIndicatorBonus := 0.03
        maxClarityIndicatorBonus := 0.15
        measurementBonus := 0.02
        maxMeasurementBonus := 0.1
        verbBonus := 0.02
        maxVerbBonus := 0.1
        minSentenceLength := 5
        sentenceLengthThreshold1 := 150
        sentenceLengthThreshold2 := 250
        longSentencePenalty1 := 0.05
        longSentencePenalty2 := 0.1
        structureBonus := 0.05 }
    completeness :=
      { baseScore := 0.35
        titleBonus := 0.08
        titleMinLength := 5
        instructionsBonus := 0.18
        constraintsBonus := 0.12
        domainBonus := 0.08
        formatBonus := 0.08
        sectionsBonus := 0.04
        maxSectionsBonus := 0.16
        completenessIndicatorBonus := 0.025
        maxCompletenessIndicatorBonus := 0.1
        exampleBonus := 0.08
        depthBonus1 := 0.04
        depthBonus2 := 0.04
        depthBonus3 := 0.04
        depthThreshold1 := 50
        depthThreshold2 := 100
        depthThreshold3 := 200
        shortInstructionPenalty := 0.1
        shortInstructionThreshold := 50 }
    validation :=
      { minPromptLength := 3
        maxPromptLength := 10000
        roundingPrecision := 2 } }

/-- Domain-resolved configuration (scoring.config getScoringConfig): the
DOMAIN_CONFIGS partial override for the domain, shallow-merged over the
defaults; unknown or absent domains yield the defaults. -/
def getScoringConfig (domain : Option String) : ScoringConfig :=
  match domain with
  | some d =>
    if d = "code" then
      { DEFAULT_SCORING_CONFIG with
        clarity := { DEFAULT_SCORING_CONFIG.clarity with
          verbBonus := 0.03, maxVerbBonus := 0.15 }
        completeness := { DEFAULT_SCORING_CONFIG.completeness with
          constraintsBonus := 0.15, exampleBonus := 0.1 } }
    else if d = "docs" then
      { DEFAULT_SCORING_CONFIG with
        clarity := { DEFAULT_SCORING_CONFIG.clarity with
          structureBonus := 0.08, clarityIndicatorBonus := 0.04 }
        completeness := { DEFAULT_SCORING_CONFIG.completeness with
          sectionsBonus := 0.06, maxSectionsBonus := 0.2 } }
    else if d = "product" then
      { DEFAULT_SCORING_CONFIG with
        completeness := { DEFAULT_SCORING_CONFIG.completeness with
          exampleBonus := 0.12, depthBonus1 := 0.06, depthBonus2 := 0.06,
          depthBonus3 := 0.06 } }
    else if d = "research" then
      { DEFAULT_SCORING_CONFIG with
        clarity := { DEFAULT_SCORING_CONFIG.clarity with
          measurementBonus := 0.04, maxMeasurementBonus := 0.15 }
        completeness := { DEFAULT_SCORING_CONFIG.completeness with
          depthThreshold1 := 75, depthThreshold2 := 150,
          depthThreshold3 := 300 } }
    else DEFAULT_SCORING_CONFIG
  | none => DEFAULT_SCORING_CONFIG

/-- Issue severity (the Ambiguity severity union of the sources). -/
inductive Severity where
  | info
  | warn
  | error
  deriving DecidableEq

/-- Detected issue (the Ambiguity record of the sources). -/
structure Issue where
  path : String
  message : String
  severity : Severity
  deriving DecidableEq

/-- Typed input reference of the specification context; the TS field named
type is called itype here. -/
structure InputRef where
  itype : String
  ref : String
  deriving DecidableEq

/-- Specification context (the context member of StructuralThinking). -/
structure SpecContext where
  domain : Option String
  inputs : Option (List InputRef)
  deriving DecidableEq

/-- Output contract of a specification. -/
structure Contract where
  sections : Option (List String)
  schemaRef : Option String
  deriving DecidableEq

/-- Output description of a specification; the server module restricts
format to the four-member union, modelled as a plain string as in the
engine interface. -/
structure IOSpec where
  format : String
  contract : Option Contract
  deriving DecidableEq

/-- Cached quality metrics of a specification. -/
structure Metrics where
  clarity : ℚ
  completeness : ℚ
  deriving DecidableEq

/-- The StructuralThinking specification record.  Fields optional in the
TS interface are Options; ambiguities is kept at the engine interface
type, a list of strings, which no modelled function reads. -/
structure StructuralThinking where
  version : String
  intent : String
  title : Option String
  context : Option SpecContext
  instructions : List String
  constraints : Option (List String)
  io : IOSpec
  ambiguities : Option (List String)
  metrics : Option Metrics
  notes : Option String
  deriving DecidableEq

/-- Join a list of strings with single spaces, the semantics of
Array.prototype.join with a space separator. -/
def joinSp (l : List String) : String :=
  String.intercalate (" ") l

/-- Does any VAGUE_WORDS pattern match the text?  This is the server
function hasVagueLanguage, and also the hasVague field computed by
analyzeVagueLanguage in the engine, which collects the matches of the
same patterns and tests the collection for non-emptiness. -/
def hasVagueLanguage (text : String) : Bool :=
  VAGUE_WORDS.any (fun p => wbTest p text)

end ST

namespace ST.Engine

/-- Number of VAGUE_WORDS patterns that match the text (the vagueCount
local of the engine calculateClarity). -/
def vagueCountOf (text : String) : Nat :=
  (VAGUE_WORDS.filter (fun p => wbTest p text)).length

/-- Number of CLARITY_INDICATORS patterns that match the text. -/
def clarityCountOf (text : String) : Nat :=
  (CLARITY_INDICATORS.filter (fun p => wbTest p text)).length

/-- Number of CONCRETE_VERBS patterns that match the text. -/
def verbCountOf (text : String) : Nat :=
  (CONCRETE_VERBS.filter (fun p => wbTest p text)).length

/-- Number of QUESTION_WORDS matches in the text. -/
def questionCountOf (text : String) : Nat :=
  scanCountAux (wbAltMatchAt QUESTION_WORDS) none 0 text.toList

/-- Total number of domain-pattern matches in the text. -/
def domainCountOf (domain : Option String) (text : String) : Nat :=
  ((getDomainPatterns domain).map (fun p => wbCount p text)).sum

/-- Does any STRUCTURE_PATTERNS regex match the text?  This models the
some-test of the engine with every global regex at lastIndex zero; the
statefulness of the shared regex objects is modelled separately by
structSomeStateful. -/
def hasStructureOf (text : String) : Bool :=
  scanTestAux structBulletAt none text.toList
    || scanTestAux structNumberedAt none text.toList
    || scanTestAux structHeadingAt none text.toList
    || wbTest structSeqWords text

/-- Long-sentence penalty of the engine calculateClarity: sentences longer
than the configured minimum once trimmed, averaged over their untrimmed
lengths, penalised past each threshold. -/
def sentencePenaltyOf (cfg : ClarityConfig) (text : String) : ℚ :=
  let sentences := (splitSentences text.toList).filter
    (fun s => (jsTrim s).length > cfg.minSentenceLength)
  if sentences.length > 0 then
    let avg : ℚ := ((sentences.map (fun s => (s.length : ℚ))).sum) / (sentences.length : ℚ)
    (if avg > cfg.sentenceLengthThreshold1 then cfg.longSentencePenalty1 else 0)
      + (if avg > cfg.sentenceLengthThreshold2 then cfg.longSentencePenalty2 else 0)
  else 0

/-- Vague-language penalty of the engine calculateClarity, with the
proportional branch of the source faithfully dividing the pattern count
by the word count before multiplying it back. -/
def vaguePenaltyOf (cfg : ClarityConfig) (text : String) : ℚ :=
  let totalWords := getWordCount text
  let vagueCount := vagueCountOf text
  if cfg.proportionalScoring && decide (0 < totalWords) then
    min (((vagueCount : ℚ) / (totalWords : ℚ)) * (totalWords : ℚ) * cfg.vagueWordPenalty)
      cfg.maxVagueWordPenalty
  else
    min ((vagueCount : ℚ) * cfg.vagueWordPenalty) cfg.maxVagueWordPenalty

/-- Raw clarity sum of the engine calculateClarity before clamping and
rounding, with the structure-bonus boolean passed explicitly so that the
same expression serves the stateless model and the model of the shared
stateful structure regexes. -/
def clarityScoreWith (cfg : ClarityConfig) (domain : Option String)
    (text : String) (hasStructure : Bool) : ℚ :=
  cfg.baseScore
    - vaguePenaltyOf cfg text
    + min ((clarityCountOf text : ℚ) * cfg.clarityIndicatorBonus)
        cfg.maxClarityIndicatorBonus
    + min ((measurementCount text : ℚ) * cfg.measurementBonus)
        cfg.maxMeasurementBonus
    + min ((verbCountOf text : ℚ) * cfg.verbBonus) cfg.maxVerbBonus
    - sentencePenaltyOf cfg text
    + (if hasStructure then cfg.structureBonus else 0)
    + (if 0 < questionCountOf text then
        min ((questionCountOf text : ℚ) * 0.02) 0.08 else 0)
    + (if 0 < domainCountOf domain text then
        min ((domainCountOf domain text : ℚ) * 0.01) 0.05 else 0)

/-- Engine calculateClarity (validation.ts): domain-resolved base score,
signal bonuses and penalties, clamp to the unit interval and round.
Texts shorter than the configured minimum validate as too short and
yield zero.  The hasConstraints argument is unused by the source too.
The structure test here models the shared global regexes at lastIndex
zero, the state in which the module loads. -/
def calculateClarity (text : String) (_hasConstraints : Bool)
    (domain : Option String) : ℚ :=
  if text.length < 3 then 0
  else
    let cfg := (getScoringConfig domain).clarity
    safeRound (jsClamp01 (clarityScoreWith cfg domain text (hasStructureOf text)))

/-- Engine calculateCompleteness (validation.ts): base score plus presence
and depth bonuses over the specification and text, clamped and
rounded. -/
def calculateCompleteness (text : String) (spec : StructuralThinking)
    (domain : Option String) : ℚ :=
  let cfg := (getScoringConfig domain).completeness
  let titleB : ℚ := match spec.title with
    | some t => if t ≠ "" && cfg.titleMinLength ≤ t.length then cfg.titleBonus else 0
    | none => 0
  let instrB : ℚ :=
    if 0 < spec.instructions.length then
      let wc := getWordCount (joinSp spec.instructions)
      cfg.instructionsBonus
        + (if cfg.depthThreshold1 < wc then cfg.depthBonus1 else 0)
        + (if cfg.depthThreshold2 < wc then cfg.depthBonus2 else 0)
        + (if cfg.depthThreshold3 < wc then cfg.depthBonus3 else 0)
        - (if wc < cfg.shortInstructionThreshold then cfg.shortInstructionPenalty else 0)
    else 0
  let constraintsB : ℚ := match spec.constraints with
    | some l => if 0 < l.length then cfg.constraintsBonus else 0
    | none => 0
  let domainB : ℚ := match spec.context with
    | some ctx => match ctx.domain with
      | some d => if d ≠ "" then cfg.domainBonus else 0
      | none => 0
    | none => 0
  let formatB : ℚ := if spec.io.format ≠ "" then cfg.formatBonus else 0
  let sectionsB : ℚ := match spec.io.contract with
    | some c => match c.sections with
      | some secs =>
        if 0 < secs.length then
          min ((secs.length : ℚ) * cfg.sectionsBonus) cfg.maxSectionsBonus
        else 0
      | none => 0
    | none => 0
  let indicatorB : ℚ :=
    min (((COMPLETENESS_INDICATORS.filter (fun p => wbTest p text)).length : ℚ)
        * cfg.completenessIndicatorBonus)
      cfg.maxCompletenessIndicatorBonus
  let exampleB : ℚ :=
    if wbTest (["example", "instance", "such as", "like", "including"]) text then
      cfg.exampleBonus
    else 0
  safeRound (jsClamp01 (cfg.baseScore + titleB + instrB + constraintsB
    + domainB + formatB + sectionsB + indicatorB + exampleB))

/-- Engine draftFromText (validation.ts): split into lines with non-blank
trim, join, infer intent by the ordered rules, populate title,
single-element instructions, word-limit constraint, section hints, and
the two metric scores (completeness computed on the otherwise finished
specification). -/
def draftFromText (prompt : String) (domain : Option String) : StructuralThinking :=
  let lines := ((splitNL prompt.toList).filter (fun l => jsTrim l ≠ [])).map String.mk
  let joined := String.mk (jsTrim (joinSp lines).toList)
  let intent :=
    if wbTest (["create", "build", "implement", "develop", "generate"]) joined then
      "generate_code"
    else if wbTest (["analyze", "review", "evaluate", "assess"]) joined then
      "analyze"
    else if wbTest (["explain", "describe", "document", "outline"]) joined then
      "explain"
    else "general"
  let title := match lines.head? with
    | some l => some l
    | none => some (String.mk (joined.toList.take 100))
  let constraints := match findWordLimit joined.toList with
    | some ds => [(("max ").append (String.mk ds)).append (" words")]
    | none => ([] : List String)
  let sections :=
    (if wbTest (["overview", "summary", "introduction"]) joined then
      ["Overview"] else [])
    ++ (if wbTest (["details", "detail", "implementation", "steps", "step"]) joined then
      ["Details"] else [])
    ++ (if wbTest (["next steps", "next step", "conclusion", "follow-up",
          "follow up", "followup"]) joined then ["NextSteps"] else [])
    ++ (if wbTest (["examples", "example", "samples", "sample"]) joined then
      ["Examples"] else [])
  let contract : Contract :=
    if 0 < sections.length then { sections := some sections, schemaRef := none }
    else { sections := none, schemaRef := none }
  let clarity := calculateClarity joined false domain
  let spec0 : StructuralThinking :=
    { version := "1.0"
      intent := intent
      title := title
      context := some { domain := domain, inputs := none }
      instructions := [joined]
      constraints := some constraints
      io := { format := "markdown", contract := some contract }
      ambiguities := some []
      metrics := some { clarity := clarity, completeness := 0 }
      notes := some "" }
  let finalMetrics : Metrics :=
    { clarity := clarity
      completeness := calculateCompleteness joined spec0 domain }
  { spec0 with metrics := some finalMetrics }

/-- Engine detectGaps (validation.ts): the four issue rules in source
order, and the score pair echoed from the metrics with zero defaults. -/
def detectGaps (spec : StructuralThinking) : List Issue × (ℚ × ℚ) :=
  let sectionsLen := match spec.io.contract with
    | some c => match c.sections with
      | some s => s.length
      | none => 0
    | none => 0
  let i1 :=
    if spec.io.format = "markdown" && sectionsLen = 0 then
      [Issue.mk ("/io/contract/sections")
        ("Missing markdown sections for output contract") Severity.warn]
    else []
  let i2 :=
    if hasVagueLanguage (joinSp spec.instructions) then
      [Issue.mk ("/instructions")
        ("Vague language detected (optimize/better/quickly/etc.)") Severity.warn]
    else []
  let constraintsMissing : Bool := match spec.constraints with
    | some l => l.isEmpty
    | none => true
  let i3 :=
    if constraintsMissing then
      [Issue.mk ("/constraints")
        ("Consider adding constraints (word limit, style, tone)") Severity.info]
    else []
  let inputsMissing : Bool := match spec.context with
    | some ctx => match ctx.inputs with
      | some l => l.isEmpty
      | none => true
    | none => true
  let i4 :=
    if inputsMissing then
      [Issue.mk ("/context/inputs")
        ("No inputs linked (file/url/text). Add at least one if applicable.")
        Severity.info]
    else []
  (i1 ++ i2 ++ i3 ++ i4,
    ((spec.metrics.map Metrics.clarity).getD 0,
     (spec.metrics.map Metrics.completeness).getD 0))

end ST.Engine

namespace ST.Server

/-- Fixed scoring configuration of the server module (its SCORING_CONFIG
constant); the completeness and validation sections coincide with the
engine defaults, the clarity section differs. -/
def SERVER_SCORING_CONFIG : ScoringConfig :=
  { clarity :=
      { baseScore := 0.5
        proportionalScoring := true
        vagueWordPenalty := 0.08
        maxVagueWordPenalty := 0.4
        clarityIndicatorBonus := 0.12
        maxClarityIndicatorBonus := 0.35
        measurementBonus := 0.1
        maxMeasurementBonus := 0.25
        verbBonus := 0.06
        maxVerbBonus := 0.18
        minSentenceLength := 10
        sentenceLengthThreshold1 := 150
        sentenceLengthThreshold2 := 200
        longSentencePenalty1 := 0.08
        longSentencePenalty2 := 0.12
        structureBonus := 0.12 }
    completeness := DEFAULT_SCORING_CONFIG.completeness
    validation := DEFAULT_SCORING_CONFIG.validation }

/-- Server toLines: split on optional carriage return plus newline, trim
every line, keep the non-empty ones. -/
def toLines (text : String) : List String :=
  (((splitNL text.toList).map (fun l => jsTrim (stripCR l))).filter
    (fun l => l ≠ [])).map String.mk

/-- Matcher for the regex next, optional whitespace, step with an optional
trailing s (the server section hint for NextSteps, no boundaries). -/
def nextStepsAt (_prev : Option Char) (cs : List Char) : Option Nat :=
  if ciStarts ("next").toList cs then
    let s := spaceRun (cs.drop 4)
    if ciStarts ("step").toList (cs.drop (4 + s)) then
      let opt := if ((cs.drop (4 + s + 4)).head?).any (fun c => ciEq ('s') c)
        then 1 else 0
      some (4 + s + 4 + opt)
    else none
  else none

/-- Server calculateClarity: like the engine version but with the fixed
server configuration, a single measurement regex, only the bullet and
numbered-list structure checks, no question-word or domain bonus, and no
rounding of the clamped result.  The structure regexes are inline
literals in the server source, so they are stateless. -/
def calculateClarity (text : String) (_hasConstraints : Bool) : ℚ :=
  if text.length < 3 then 0
  else
    let cfg := SERVER_SCORING_CONFIG.clarity
    let score := cfg.baseScore
      - Engine.vaguePenaltyOf cfg text
      + min ((Engine.clarityCountOf text : ℚ) * cfg.clarityIndicatorBonus)
          cfg.maxClarityIndicatorBonus
      + min ((scanCountAux measure1At none 0 text.toList : ℚ) * cfg.measurementBonus)
          cfg.maxMeasurementBonus
      + min ((Engine.verbCountOf text : ℚ) * cfg.verbBonus) cfg.maxVerbBonus
      - Engine.sentencePenaltyOf cfg text
      + (if scanTestAux structBulletAt none text.toList
            || scanTestAux structNumberedAt none text.toList then
          cfg.structureBonus
        else 0)
    jsClamp01 score

/-- Server calculateCompleteness: base score plus presence bonuses (title
strictly longer than the minimum), depth bonuses over the joined
instruction text computed unconditionally, and a brevity penalty only
for single-instruction specifications; clamped, not rounded. -/
def calculateCompleteness (text : String) (spec : StructuralThinking) : ℚ :=
  let cfg := SERVER_SCORING_CONFIG.completeness
  let titleB : ℚ := match spec.title with
    | some t => if t ≠ "" && cfg.titleMinLength < t.length then cfg.titleBonus else 0
    | none => 0
  let instrB : ℚ := if 0 < spec.instructions.length then cfg.instructionsBonus else 0
  let constraintsB : ℚ := match spec.constraints with
    | some l => if 0 < l.length then cfg.constraintsBonus else 0
    | none => 0
  let domainB : ℚ := match spec.context with
    | some ctx => match ctx.domain with
      | some d => if d ≠ "" then cfg.domainBonus else 0
      | none => 0
    | none => 0
  let formatB : ℚ := if spec.io.format ≠ "" then cfg.formatBonus else 0
  let sectionsB : ℚ := match spec.io.contract with
    | some c => match c.sections with
      | some secs =>
        if 0 < secs.length then
          min ((secs.length : ℚ) * cfg.sectionsBonus) cfg.maxSectionsBonus
        else 0
      | none => 0
    | none => 0
  let indicatorB : ℚ :=
    min (((COMPLETENESS_INDICATORS.filter (fun p => wbTest p text)).length : ℚ)
        * cfg.completenessIndicatorBonus)
      cfg.maxCompletenessIndicatorBonus
  let exampleB : ℚ :=
    if wbTest (["examples", "example"]) text || wbTest (["for instance"]) text
        || wbTest (["such as"]) text then
      cfg.exampleBonus
    else 0
  let wc := getWordCount (joinSp spec.instructions)
  let depthB : ℚ :=
    (if cfg.depthThreshold1 < wc then cfg.depthBonus1 else 0)
      + (if cfg.depthThreshold2 < wc then cfg.depthBonus2 else 0)
      + (if cfg.depthThreshold3 < wc then cfg.depthBonus3 else 0)
  let shortP : ℚ := match spec.instructions with
    | [single] =>
      if getWordCount single < cfg.shortInstructionThreshold then
        cfg.shortInstructionPenalty
      else 0
    | _ => 0
  jsClamp01 (cfg.baseScore + titleB + instrB + constraintsB + domainB
    + formatB + sectionsB + indicatorB + exampleB + depthB - shortP)

/-- Server draftFromText: trimmed non-blank lines as instructions, the
ordered substring intent rules, a title truncated to eighty characters
when a first line exists, the word-limit constraint, the three server
section hints, and rounded metrics computed on the joined text. -/
def draftFromText (prompt : String) (domain : Option String) : StructuralThinking :=
  let lines := toLines prompt
  let joined := joinSp lines
  let intent :=
    if ciTest (["translate"]) joined then "translate"
    else if ciTest (["refactor", "rewrite"]) joined then "refactor"
    else if ciTest (["classify"]) joined then "classify"
    else if ciTest (["explain"]) joined then "explain"
    else if ciTest (["plan"]) joined then "plan"
    else if ciTest (["compare"]) joined then "compare"
    else if ciTest (["summarise", "summarize"]) joined then "summarize"
    else if ciTest (["generate", "create", "write"]) joined then "generate_code"
    else "general"
  let title := lines.head?.map (fun l => String.mk (l.toList.take 80))
  let constraints := match findWordLimit joined.toList with
    | some ds => [(("max ").append (String.mk ds)).append (" words")]
    | none => ([] : List String)
  let sections :=
    (if ciTest (["risk"]) joined then ["Risks"] else [])
    ++ (if scanTestAux nextStepsAt none joined.toList then ["NextSteps"] else [])
    ++ (if ciTest (["highlights", "highlight", "summary"]) joined then
      ["Highlights"] else [])
  let contract : Contract :=
    if 0 < sections.length then { sections := some sections, schemaRef := none }
    else { sections := none, schemaRef := none }
  let spec0 : StructuralThinking :=
    { version := "1.0"
      intent := intent
      title := title
      context := some { domain := domain, inputs := none }
      instructions := lines
      constraints := some constraints
      io := { format := "markdown", contract := some contract }
      ambiguities := some []
      metrics := some { clarity := 0, completeness := 0 }
      notes := some "" }
  let clarity := calculateClarity joined (decide (constraints.length > 0))
  let completeness := calculateCompleteness joined spec0
  let finalMetrics : Metrics :=
    { clarity := safeRound clarity
      completeness := safeRound completeness }
  { spec0 with metrics := some finalMetrics }

/-- Server detectGaps: the six issue rules in source order (including the
missing-format and empty-instructions errors absent from the engine
version), and the metric pair, echoed when the specification carries
numeric metrics and recomputed from the joined instruction text
otherwise, rounded either way. -/
def detectGaps (spec : StructuralThinking) : List Issue × (ℚ × ℚ) :=
  let i0 :=
    if spec.io.format = "" then
      [Issue.mk ("/io/format") ("Missing output format") Severity.error]
    else []
  let sectionsLen := match spec.io.contract with
    | some c => match c.sections with
      | some s => s.length
      | none => 0
    | none => 0
  let i1 :=
    if spec.io.format = "markdown" && sectionsLen = 0 then
      [Issue.mk ("/io/contract/sections")
        ("Missing markdown sections for output contract") Severity.warn]
    else []
  let i2 :=
    if spec.instructions.isEmpty then
      [Issue.mk ("/instructions") ("No instructions provided") Severity.error]
    else []
  let joined := joinSp spec.instructions
  let i3 :=
    if hasVagueLanguage joined then
      [Issue.mk ("/instructions")
        ("Vague language detected (optimize/better/quickly/etc.)") Severity.warn]
    else []
  let constraintsMissing : Bool := match spec.constraints with
    | some l => l.isEmpty
    | none => true
  let i4 :=
    if constraintsMissing then
      [Issue.mk ("/constraints")
        ("Consider adding constraints (word limit, style, tone)") Severity.info]
    else []
  let inputsMissing : Bool := match spec.context with
    | some ctx => match ctx.inputs with
      | some l => l.isEmpty
      | none => true
    | none => false
  let i5 :=
    if inputsMissing then
      [Issue.mk ("/context/inputs")
        ("No inputs linked (file/url/text). Add at least one if applicable.")
        Severity.info]
    else []
  let hasConstraints : Bool := match spec.constraints with
    | some l => !l.isEmpty
    | none => false
  let clarity := match spec.metrics with
    | some m => m.clarity
    | none => calculateClarity joined hasConstraints
  let completeness := match spec.metrics with
    | some m => m.completeness
    | none => calculateCompleteness joined spec
  (i0 ++ i1 ++ i2 ++ i3 ++ i4 ++ i5, (safeRound clarity, safeRound completeness))

end ST.Server

namespace ST.Engine

/-- LastIndex state of the four shared STRUCTURE_PATTERNS regex objects.
Each carries the global flag and is probed with RegExp.test, which
starts at lastIndex, stores the end of a successful match there, and
resets it to zero on failure. -/
structure GState where
  li1 : Nat
  li2 : Nat
  li3 : Nat
  li4 : Nat
  deriving DecidableEq

/-- LastIndex state at module load, all four regexes at zero. -/
def GState.init : GState :=
  { li1 := 0, li2 := 0, li3 := 0, li4 := 0 }

/-- One RegExp.test call on a global regex: search from lastIndex with the
preceding character of the full string available to boundary
assertions; on success return the index one past the match, on failure
reset to zero. -/
def gTestFrom (m : Option Char → List Char → Option Nat) (cs : List Char)
    (li : Nat) : Bool × Nat :=
  let prev := if li = 0 then none else cs.get? (li - 1)
  match scanFirstAux m prev li (cs.drop li) with
  | some (i, n) => (true, i + n)
  | none => (false, 0)

/-- The some-test over the four shared structure regexes with their
lastIndex state threaded through, short-circuiting like
Array.prototype.some: regexes after the first success keep their
state. -/
def structSomeStateful (text : String) (st : GState) : Bool × GState :=
  let cs := text.toList
  let (r1, li1) := gTestFrom structBulletAt cs st.li1
  if r1 then (true, { st with li1 := li1 })
  else
    let (r2, li2) := gTestFrom structNumberedAt cs st.li2
    if r2 then (true, { st with li1 := li1, li2 := li2 })
    else
      let (r3, li3) := gTestFrom structHeadingAt cs st.li3
      if r3 then (true, { st with li1 := li1, li2 := li2, li3 := li3 })
      else
        let (r4, li4) := gTestFrom (wbAltMatchAt structSeqWords) cs st.li4
        (r4, { li1 := li1, li2 := li2, li3 := li3, li4 := li4 })

/-- Engine calculateClarity with the lastIndex state of the shared
structure regexes made explicit: the faithful model of consecutive
invocations in one process.  A too-short text returns before any regex
is probed, leaving the state unchanged. -/
def calculateClarityStateful (text : String) (_hasConstraints : Bool)
    (domain : Option String) (st : GState) : ℚ × GState :=
  if text.length < 3 then (0, st)
  else
    let cfg := (getScoringConfig domain).clarity
    let probe := structSomeStateful text st
    (safeRound (jsClamp01 (clarityScoreWith cfg domain text probe.1)), probe.2)

end ST.Engine

namespace ST.Cache

/-- Cache entry record (the CacheEntry interface of the caching module);
times are integral epoch milliseconds. -/
structure CacheEntry (V : Type) where
  key : String
  value : V
  timestamp : ℤ
  ttl : ℤ
  accessCount : Nat
  lastAccessed : ℤ
  deriving DecidableEq

/-- LRU cache state: the entry association list in Map iteration order
(insertion order, oldest first), the construction-time bounds, and the
hit and miss counters. -/
structure LRUCache (V : Type) where
  entries : List (String × CacheEntry V)
  maxSize : Nat
  defaultTTL : ℤ
  hits : Nat
  misses : Nat
  deriving DecidableEq

/-- Freshly constructed cache (the LRUCache constructor). -/
def emptyCache (V : Type) (maxSize : Nat) (defaultTTL : ℤ) : LRUCache V :=
  { entries := [], maxSize := maxSize, defaultTTL := defaultTTL,
    hits := 0, misses := 0 }

/-- Map.prototype.get on the ordered association list. -/
def mapGet {V : Type} (k : String) (l : List (String × CacheEntry V)) :
    Option (CacheEntry V) :=
  (l.find? (fun p => p.1 == k)).map Prod.snd

/-- Map.prototype.has. -/
def mapHas {V : Type} (k : String) (l : List (String × CacheEntry V)) : Bool :=
  l.any (fun p => p.1 == k)

/-- Map.prototype.delete, removing the binding of the key; Map keys are
unique, so removing the first occurrence is exact. -/
def mapDelete {V : Type} (k : String) (l : List (String × CacheEntry V)) :
    List (String × CacheEntry V) :=
  l.eraseP (fun p => p.1 == k)

/-- Map.prototype.set: update in place when the key is bound, append at
the fresh end otherwise. -/
def mapSet {V : Type} (k : String) (e : CacheEntry V)
    (l : List (String × CacheEntry V)) : List (String × CacheEntry V) :=
  if mapHas k l then l.map (fun p => if p.1 == k then (k, e) else p)
  else l ++ [(k, e)]

/-- LRUCache.get: a missing key counts a miss; an entry older than its TTL
is deleted and counts a miss; otherwise access metadata is refreshed,
the entry moves to the fresh end, and a hit is counted. -/
def get {V : Type} (now : ℤ) (key : String) (c : LRUCache V) :
    Option V × LRUCache V :=
  match mapGet key c.entries with
  | none => (none, { c with misses := c.misses + 1 })
  | some e =>
    if e.ttl < now - e.timestamp then
      (none,
        { c with
          entries := mapDelete key c.entries
          misses := c.misses + 1 })
    else
      let e2 := { e with lastAccessed := now, accessCount := e.accessCount + 1 }
      (some e.value,
        { c with
          entries := mapSet key e2 (mapDelete key c.entries)
          hits := c.hits + 1 })

/-- Resolution of the TTL argument: a zero TTL is falsy in the source
expression ttl-or-defaultTTL and falls back to the default, as does an
absent one. -/
def resolveTTL (ttl : Option ℤ) (dflt : ℤ) : ℤ :=
  match ttl with
  | some t => if t ≠ 0 then t else dflt
  | none => dflt

/-- Eviction step of LRUCache.set: on a full cache and a fresh key the
first (least recently used) key is evicted, but only when that key is
truthy, the source guarding the deletion with a plain truthiness test
that an empty string fails. -/
def evictIfFull {V : Type} (key : String) (c : LRUCache V) :
    List (String × CacheEntry V) :=
  if decide (c.maxSize ≤ c.entries.length) && !(mapHas key c.entries) then
    match c.entries.head? with
    | some fp => if fp.1 ≠ "" then mapDelete fp.1 c.entries else c.entries
    | none => c.entries
  else c.entries

/-- Entry written by LRUCache.set: the value under the key with creation
time and access metadata reset. -/
def freshEntry {V : Type} (now : ℤ) (key : String) (v : V) (ttl : ℤ) :
    CacheEntry V :=
  { key := key
    value := v
    timestamp := now
    ttl := ttl
    accessCount := 1
    lastAccessed := now }

/-- LRUCache.set: evict if at capacity with a fresh key, remove any
existing binding of the key, then insert the entry at the fresh end
with reset metadata; a zero TTL argument is falsy in the source and
falls back to the default. -/
def set {V : Type} (now : ℤ) (key : String) (v : V) (ttl : Option ℤ)
    (c : LRUCache V) : LRUCache V :=
  let afterEvict := evictIfFull key c
  let afterRemove :=
    if mapHas key afterEvict then mapDelete key afterEvict else afterEvict
  let entry : CacheEntry V := freshEntry now key v (resolveTTL ttl c.defaultTTL)
  { c with entries := mapSet key entry afterRemove }

/-- LRUCache.has: existence probe that deletes an expired entry but never
touches the counters or the recency order. -/
def has {V : Type} (now : ℤ) (key : String) (c : LRUCache V) :
    Bool × LRUCache V :=
  match mapGet key c.entries with
  | none => (false, c)
  | some e =>
    if e.ttl < now - e.timestamp then
      (false, { c with entries := mapDelete key c.entries })
    else (true, c)

/-- LRUCache.delete: plain Map deletion, no expiry check, no counter
update; returns whether the key was bound. -/
def delete {V : Type} (key : String) (c : LRUCache V) : Bool × LRUCache V :=
  (mapHas key c.entries, { c with entries := mapDelete key c.entries })

/-- LRUCache.clear: drop every entry and reset both counters. -/
def clear {V : Type} (c : LRUCache V) : LRUCache V :=
  { c with entries := [], hits := 0, misses := 0 }

/-- LRUCache.cleanup: evict every expired entry, returning how many were
removed. -/
def cleanup {V : Type} (now : ℤ) (c : LRUCache V) : Nat × LRUCache V :=
  let expired := fun (p : String × CacheEntry V) => p.2.ttl < now - p.2.timestamp
  ((c.entries.filter (fun p => decide (expired p))).length,
    { c with entries := c.entries.filter (fun p => !decide (expired p)) })

/-- Cache statistics (the CacheStats interface).  The rough memory
estimate over JSON serialisation lengths is outside the embedding and
not modelled; no claim mentions it. -/
structure CacheStats where
  hits : Nat
  misses : Nat
  size : Nat
  maxSize : Nat
  hitRate : ℚ
  deriving DecidableEq

/-- LRUCache.getStats: the counters, sizes, and the hit rate, which the
source computes as hits over total requests (zero when there were
none) and then rounds to two decimals. -/
def getStats {V : Type} (c : LRUCache V) : CacheStats :=
  let total := c.hits + c.misses
  let hitRate : ℚ := if 0 < total then (c.hits : ℚ) / (total : ℚ) else 0
  { hits := c.hits, misses := c.misses, size := c.entries.length,
    maxSize := c.maxSize, hitRate := safeRound hitRate }

end ST.Cache

namespace ST

/-- A rational is representable with two decimal places when one hundred
times it is an integer. -/
def isTwoDecimal (q : ℚ) : Prop :=
  ∃ n : ℤ, q * 100 = (n : ℚ)

/-- Text whose structure bonus flips between consecutive engine clarity
calls because of the shared global regex state. -/
def txtC5 : String :=
  "- abc"

/-- The scenario text containing the four vague terms very, good, quite
and nice. -/
def txtC7vague : String :=
  "very good and quite nice solution"

/-- The same text with the four vague terms removed. -/
def txtC7plain : String :=
  "and solution"

/-- The scenario A prompt. -/
def promptC9 : String :=
  "create user authentication"

/-- A whitespace-only prompt of exactly the minimum valid length. -/
def wsPromptC6 : String :=
  "   "

/-- A short ordinary prompt used to instantiate amended claims. -/
def helloPrompt : String :=
  "hello"

/-- Predicate selecting issues with severity info at the constraints
path. -/
def infoConstraintP (i : Issue) : Bool :=
  decide (i.severity = Severity.info) && decide (i.path = "/constraints")

/-- A specification whose constraints field is the empty list. -/
def specC8 : StructuralThinking :=
  { version := "1.0"
    intent := "general"
    title := none
    context := none
    instructions := ["do the thing"]
    constraints := some []
    io := { format := "markdown", contract := none }
    ambiguities := none
    metrics := none
    notes := none }

/-- Two inserts into a capacity-one cache whose resident key is the empty
string: eviction is skipped by the truthiness guard. -/
def cacheC3a : Cache.LRUCache Nat :=
  Cache.set 1 ("a") 2 none (Cache.set 0 ("") 1 none (Cache.emptyCache Nat 1 300000))

/-- A cache driven to one hit and two misses: two missing gets, one set,
one successful get. -/
def cacheC4 : Cache.LRUCache Nat :=
  (Cache.get 1 ("x")
    (Cache.set 0 ("x") 7 none
      ((Cache.get 0 ("y")
        ((Cache.get 0 ("x") (Cache.emptyCache Nat 10 1000)).2)).2))).2

/-- An entry whose TTL elapsed long ago relative to any later clock
reading. -/
def entryC10 : Cache.CacheEntry Nat :=
  { key := ("k")
    value := 5
    timestamp := 0
    ttl := 5
    accessCount := 1
    lastAccessed := 0 }

/-- Cache state wrapping entryC10 with non-zero counters. -/
def cacheC10 : Cache.LRUCache Nat :=
  { entries := [(("k"), entryC10)]
    maxSize := 10
    defaultTTL := 100
    hits := 3
    misses := 4 }

/-- An empty cache used to instantiate the cache claims. -/
def cacheC2 : Cache.LRUCache Nat :=
  Cache.emptyCache Nat 10 300000

/-- A resident entry under a non-empty key. -/
def entryC3b : Cache.CacheEntry Nat :=
  { key := ("b")
    value := 9
    timestamp := 0
    ttl := 100
    accessCount := 1
    lastAccessed := 0 }

/-- A full capacity-one cache with a non-empty resident key, used to
instantiate the amended eviction claim. -/
def cacheC3b : Cache.LRUCache Nat :=
  { entries := [(("b"), entryC3b)]
    maxSize := 1
    defaultTTL := 100
    hits := 0
    misses := 0 }

end ST

section RatSemireducible

attribute [local semireducible] Rat.mul Rat.add Rat.sub Rat.inv Rat.ofScientific

namespace ST

theorem intFloor_eq_ratFloor (q : ℚ) : ⌊q⌋ = q.floor := by
  rw [Rat.floor_def, Rat.floor_def']

theorem safeRound_eq_floor (q : ℚ) :
    safeRound q = ((⌊q * 100 + 1 / 2⌋ : ℤ) : ℚ) / 100 := by
  unfold safeRound
  rw [intFloor_eq_ratFloor]

theorem safeRound_nonneg {q : ℚ} (h : 0 ≤ q) : 0 ≤ safeRound q := by
  rw [safeRound_eq_floor]
  have h0 : (0 : ℤ) ≤ ⌊q * 100 + 1 / 2⌋ := by
    apply Int.le_floor.mpr
    push_cast
    linarith
  exact div_nonneg (by exact_mod_cast h0) (by norm_num)

theorem safeRound_le_one {q : ℚ} (h : q ≤ 1) : safeRound q ≤ 1 := by
  rw [safeRound_eq_floor]
  have h1 : q * 100 + 1 / 2 ≤ (201 : ℚ) / 2 := by linarith
  have h0 : ⌊q * 100 + 1 / 2⌋ ≤ 100 := by
    have := Int.floor_le_floor h1
    have h2 : ⌊(201 : ℚ) / 2⌋ = 100 := by norm_num
    omega
  rw [div_le_one (by norm_num : (0 : ℚ) < 100)]
  exact_mod_cast h0

theorem safeRound_mono {a b : ℚ} (h : a ≤ b) : safeRound a ≤ safeRound b := by
  rw [safeRound_eq_floor, safeRound_eq_floor]
  have h1 : a * 100 + 1 / 2 ≤ b * 100 + 1 / 2 := by linarith
  have h0 := Int.floor_le_floor h1
  exact (div_le_div_iff_of_pos_right (by norm_num : (0 : ℚ) < 100)).mpr
    (by exact_mod_cast h0)

theorem safeRound_twoDec (q : ℚ) : isTwoDecimal (safeRound q) := by
  refine ⟨⌊q * 100 + 1 / 2⌋, ?_⟩
  rw [safeRound_eq_floor]
  field_simp

theorem isTwoDecimal_zero : isTwoDecimal 0 :=
  ⟨0, by norm_num⟩

theorem jsClamp01_nonneg (q : ℚ) : 0 ≤ jsClamp01 q :=
  le_max_left 0 (min 1 q)

theorem jsClamp01_le_one (q : ℚ) : jsClamp01 q ≤ 1 :=
  max_le (by norm_num) (min_le_left 1 q)

theorem jsClamp01_mono {a b : ℚ} (h : a ≤ b) : jsClamp01 a ≤ jsClamp01 b :=
  max_le_max le_rfl (min_le_min le_rfl h)

/-- C1: for every text, every specification value and every optional
domain, the clarity score of the engine calculateClarity and the
completeness score of the engine calculateCompleteness lie in the closed
interval from zero to one and carry at most two decimal places. -/
theorem claim1_scores_in_unit_interval_two_decimals :
    ∀ (text : String) (hc : Bool) (domain : Option String)
      (spec : StructuralThinking),
      (0 ≤ Engine.calculateClarity text hc domain
        ∧ Engine.calculateClarity text hc domain ≤ 1
        ∧ isTwoDecimal (Engine.calculateClarity text hc domain))
      ∧ (0 ≤ Engine.calculateCompleteness text spec domain
        ∧ Engine.calculateCompleteness text spec domain ≤ 1
        ∧ isTwoDecimal (Engine.calculateCompleteness text spec domain)) := by
  intro text hc domain spec
  constructor
  · unfold Engine.calculateClarity
    split
    · exact ⟨le_rfl, zero_le_one, isTwoDecimal_zero⟩
    · exact ⟨safeRound_nonneg (jsClamp01_nonneg _),
        safeRound_le_one (jsClamp01_le_one _), safeRound_twoDec _⟩
  · unfold Engine.calculateCompleteness
    exact ⟨safeRound_nonneg (jsClamp01_nonneg _),
      safeRound_le_one (jsClamp01_le_one _), safeRound_twoDec _⟩

end ST

namespace ST.Cache

theorem mapGet_eq_none_of_not_has {V : Type} (k : String) :
    ∀ l : List (String × CacheEntry V), mapHas k l = false → mapGet k l = none
  | [], _ => rfl
  | p :: t, h => by
    have hh : (p.1 == k) = false ∧ mapHas k t = false := by
      simpa [mapHas, Bool.or_eq_false_iff] using h
    have ht := mapGet_eq_none_of_not_has k t hh.2
    simpa [mapGet, List.find?, hh.1] using ht

theorem find_replace_of_has {V : Type} (k : String) (e : CacheEntry V) :
    ∀ l : List (String × CacheEntry V), mapHas k l = true →
      mapGet k (l.map (fun p => if p.1 == k then (k, e) else p)) = some e
  | [], h => by simp [mapHas] at h
  | p :: t, h => by
    by_cases hp : p.1 = k
    · simp [mapGet, List.find?, hp]
    · have hp' : (p.1 == k) = false := by simp [hp]
      have ht : mapHas k t = true := by simpa [mapHas, hp'] using h
      simpa [mapGet, List.find?, hp'] using find_replace_of_has k e t ht

theorem mapGet_append_single {V : Type} (k : String) (e : CacheEntry V) :
    ∀ l : List (String × CacheEntry V), mapHas k l = false →
      mapGet k (l ++ [(k, e)]) = some e
  | [], _ => by simp [mapGet, List.find?]
  | p :: t, h => by
    have hh : (p.1 == k) = false ∧ mapHas k t = false := by
      simpa [mapHas, Bool.or_eq_false_iff] using h
    simpa [mapGet, List.find?, hh.1] using mapGet_append_single k e t hh.2

theorem mapGet_mapSet_self {V : Type} (k : String) (e : CacheEntry V)
    (l : List (String × CacheEntry V)) : mapGet k (mapSet k e l) = some e := by
  unfold mapSet
  split
  case isTrue h => exact find_replace_of_has k e l h
  case isFalse h => exact mapGet_append_single k e l (by simpa using h)

theorem nodup_keys_mapDelete {V : Type} (k : String)
    (l : List (String × CacheEntry V)) (h : (l.map Prod.fst).Nodup) :
    ((mapDelete k l).map Prod.fst).Nodup :=
  h.sublist ((List.eraseP_sublist l).map Prod.fst)

theorem mapHas_eq_false_of_all {V : Type} (k : String) :
    ∀ l : List (String × CacheEntry V), (∀ q ∈ l, (q.1 == k) = false) →
      mapHas k l = false
  | [], _ => rfl
  | p :: t, h => by
    have hp := h p (List.mem_cons_self p t)
    have ht := mapHas_eq_false_of_all k t (fun q hq => h q (List.mem_cons_of_mem p hq))
    simp only [mapHas, List.any_cons, hp, Bool.false_or]
    simpa [mapHas] using ht

theorem mapHas_mapDelete_self {V : Type} (k : String) :
    ∀ l : List (String × CacheEntry V), (l.map Prod.fst).Nodup →
      mapHas k (mapDelete k l) = false
  | [], _ => rfl
  | p :: t, h => by
    have h' : p.1 ∉ t.map Prod.fst ∧ (t.map Prod.fst).Nodup := by
      have hc : (p.1 :: t.map Prod.fst).Nodup := by simpa using h
      exact List.nodup_cons.mp hc
    by_cases hpk : p.1 = k
    · have hbk : (p.1 == k) = true := by simp [hpk]
      simp only [mapDelete, List.eraseP_cons, hbk, cond_true]
      apply mapHas_eq_false_of_all
      intro q hq
      have hqk : q.1 ≠ k := by
        intro hk
        exact h'.1 (by
          rw [hpk, ← hk]
          exact List.mem_map_of_mem Prod.fst hq)
      simp [hqk]
    · have hpk' : (p.1 == k) = false := by simp [hpk]
      have ht := mapHas_mapDelete_self k t h'.2
      simp only [mapDelete, List.eraseP_cons, hpk', cond_false]
      simpa [mapHas, hpk'] using ht

theorem mapGet_mapDelete_ne {V : Type} (k k2 : String) (hne : k2 ≠ k) :
    ∀ l : List (String × CacheEntry V),
      mapGet k2 (mapDelete k l) = mapGet k2 l
  | [] => rfl
  | p :: t => by
    by_cases hpk : p.1 = k
    · have hbk : (p.1 == k) = true := by simp [hpk]
      have hp2 : (p.1 == k2) = false := by
        have hqk : p.1 ≠ k2 := by
          rw [hpk]
          exact Ne.symm hne
        simp [hqk]
      simp only [mapDelete, List.eraseP_cons, hbk, cond_true]
      simp [mapGet, List.find?, hp2]
    · have hpk' : (p.1 == k) = false := by simp [hpk]
      simp only [mapDelete, List.eraseP_cons, hpk', cond_false]
      by_cases hp2 : p.1 = k2
      · have hp2' : (p.1 == k2) = true := by simp [hp2]
        simp [mapGet, List.find?, hp2']
      · have hp2' : (p.1 == k2) = false := by simp [hp2]
        have ht := mapGet_mapDelete_ne k k2 hne t
        simpa [mapGet, List.find?, hp2'] using ht

end ST.Cache

namespace ST.Cache

theorem mapSet_fresh_append {V : Type} (k : String) (e : CacheEntry V)
    (l : List (String × CacheEntry V)) (h : mapHas k l = false) :
    mapSet k e l = l ++ [(k, e)] := by
  simp [mapSet, h]

theorem nodup_keys_evictIfFull {V : Type} (k : String) (c : LRUCache V)
    (hnd : (c.entries.map Prod.fst).Nodup) :
    ((evictIfFull k c).map Prod.fst).Nodup := by
  unfold evictIfFull
  split
  · split
    · split
      · exact nodup_keys_mapDelete _ _ hnd
      · exact hnd
    · exact hnd
  · exact hnd

theorem afterRemove_not_has {V : Type} (k : String)
    (ae : List (String × CacheEntry V)) (hnd : (ae.map Prod.fst).Nodup) :
    mapHas k (if mapHas k ae then mapDelete k ae else ae) = false := by
  by_cases h : mapHas k ae
  · simp [h, mapHas_mapDelete_self k ae hnd]
  · simp only [Bool.not_eq_true] at h
    simp [h]

theorem set_entries_eq {V : Type} (now : ℤ) (k : String) (v : V)
    (ttl : Option ℤ) (c : LRUCache V) :
    (set now k v ttl c).entries
      = mapSet k (freshEntry now k v (resolveTTL ttl c.defaultTTL))
          (if mapHas k (evictIfFull k c) then mapDelete k (evictIfFull k c)
            else evictIfFull k c) := rfl

theorem set_entries_append {V : Type} (now : ℤ) (k : String) (v : V)
    (ttl : Option ℤ) (c : LRUCache V)
    (hnd : (c.entries.map Prod.fst).Nodup) :
    ∃ l : List (String × CacheEntry V),
      (set now k v ttl c).entries
        = l ++ [(k, freshEntry now k v (resolveTTL ttl c.defaultTTL))]
      ∧ mapHas k l = false := by
  refine ⟨if mapHas k (evictIfFull k c) then mapDelete k (evictIfFull k c)
    else evictIfFull k c, ?_, ?_⟩
  · rw [set_entries_eq]
    exact mapSet_fresh_append _ _ _
      (afterRemove_not_has k _ (nodup_keys_evictIfFull k c hnd))
  · exact afterRemove_not_has k _ (nodup_keys_evictIfFull k c hnd)

theorem set_mapGet_self {V : Type} (now : ℤ) (k : String) (v : V)
    (ttl : Option ℤ) (c : LRUCache V) :
    mapGet k (set now k v ttl c).entries
      = some (freshEntry now k v (resolveTTL ttl c.defaultTTL)) := by
  rw [set_entries_eq]
  exact mapGet_mapSet_self _ _ _

theorem mapDelete_append_single {V : Type} (k : String) (e : CacheEntry V)
    (l : List (String × CacheEntry V)) (h : mapHas k l = false) :
    mapDelete k (l ++ [(k, e)]) = l := by
  unfold mapDelete
  rw [List.eraseP_append_right]
  · simp [List.eraseP_cons]
  · intro b hb
    have : ∀ q ∈ l, (q.1 == k) = false := by
      intro q hq
      by_contra hq'
      have hq2 : (q.1 == k) = true := by
        revert hq'
        cases q.1 == k <;> simp
      have : mapHas k l = true := by
        unfold mapHas
        rw [List.any_eq_true]
        exact ⟨q, hq, hq2⟩
      rw [this] at h
      cases h
    simp [this b hb]

end ST.Cache

namespace ST

theorem safeRound_zero : safeRound 0 = 0 := by decide

/-- C2: after set of a key, a get of that key whose elapsed time does not
exceed the resolved TTL returns the stored value and increments the hit
counter; a get whose elapsed time exceeds the TTL removes the entry,
increments the miss counter and returns none. -/
theorem claim2_set_then_get_ttl :
    ∀ (V : Type) (c : Cache.LRUCache V) (k : String) (v : V)
      (ttlOpt : Option ℤ) (t0 t1 : ℤ),
      (c.entries.map Prod.fst).Nodup →
      ((t1 - t0 ≤ Cache.resolveTTL ttlOpt c.defaultTTL →
        (Cache.get t1 k (Cache.set t0 k v ttlOpt c)).1 = some v
        ∧ (Cache.get t1 k (Cache.set t0 k v ttlOpt c)).2.hits = c.hits + 1
        ∧ (Cache.get t1 k (Cache.set t0 k v ttlOpt c)).2.misses = c.misses)
      ∧ (Cache.resolveTTL ttlOpt c.defaultTTL < t1 - t0 →
        (Cache.get t1 k (Cache.set t0 k v ttlOpt c)).1 = none
        ∧ (Cache.get t1 k (Cache.set t0 k v ttlOpt c)).2.misses = c.misses + 1
        ∧ (Cache.get t1 k (Cache.set t0 k v ttlOpt c)).2.hits = c.hits
        ∧ Cache.mapGet k (Cache.get t1 k (Cache.set t0 k v ttlOpt c)).2.entries
            = none)) := by
  intro V c k v ttlOpt t0 t1 hnd
  have hget := Cache.set_mapGet_self t0 k v ttlOpt c
  constructor
  · intro hle
    have hnlt : ¬ (Cache.resolveTTL ttlOpt c.defaultTTL < t1 - t0) :=
      not_lt.mpr hle
    simp only [Cache.get, hget, Cache.freshEntry]
    rw [if_neg hnlt]
    exact ⟨rfl, rfl, rfl⟩
  · intro hlt
    simp only [Cache.get, hget, Cache.freshEntry]
    rw [if_pos hlt]
    refine ⟨rfl, rfl, rfl, ?_⟩
    obtain ⟨l, hl, hhas⟩ := Cache.set_entries_append t0 k v ttlOpt c hnd
    rw [hl, Cache.mapDelete_append_single k _ l hhas]
    exact Cache.mapGet_eq_none_of_not_has k l hhas

/-- Witness for C2 at a concrete cache: a fresh get at time ten returns the
value and counts a hit, a get after the default TTL returns none and
counts a miss. -/
theorem claim2_set_then_get_ttl_witness :
    (Cache.get 10 ("a") (Cache.set 0 ("a") 42 none cacheC2)).1 = some 42
    ∧ (Cache.get 10 ("a") (Cache.set 0 ("a") 42 none cacheC2)).2.hits
        = cacheC2.hits + 1
    ∧ (Cache.get 300001 ("a") (Cache.set 0 ("a") 42 none cacheC2)).1 = none
    ∧ (Cache.get 300001 ("a") (Cache.set 0 ("a") 42 none cacheC2)).2.misses
        = cacheC2.misses + 1 := by
  have h1 := claim2_set_then_get_ttl Nat cacheC2 ("a") 42 none 0 10 (by decide)
  have h2 := claim2_set_then_get_ttl Nat cacheC2 ("a") 42 none 0 300001 (by decide)
  have ha := h1.1 (by decide)
  have hb := h2.2 (by decide)
  exact ⟨ha.1, ha.2.1, hb.1, hb.2.1⟩

/-- C3 counterexample: the size bound fails as stated.  A capacity-one
cache whose resident (least recently used) key is the empty string skips
eviction on the next insert because the source guards the eviction with
a truthiness test; the size then exceeds the capacity and the resident
entry survives. -/
theorem claim3_counterexample :
    cacheC3a.maxSize = 1 ∧ cacheC3a.entries.length = 2
    ∧ Cache.mapGet ("") cacheC3a.entries ≠ none := by decide

/-- C3 amended: when the cache holds exactly capacity-many entries, the key
is fresh, and the least recently used key is non-empty, set evicts
exactly that oldest entry: the new entry list is the old one without its
head, plus the fresh entry at the end, and the size stays at
capacity. -/
theorem claim3_amended_lru_eviction :
    ∀ (V : Type) (c : Cache.LRUCache V) (k : String) (v : V)
      (ttlOpt : Option ℤ) (now : ℤ) (fk : String) (fe : Cache.CacheEntry V)
      (rest : List (String × Cache.CacheEntry V)),
      c.entries = (fk, fe) :: rest →
      c.entries.length = c.maxSize →
      Cache.mapHas k c.entries = false →
      fk ≠ "" →
      (Cache.set now k v ttlOpt c).entries
        = rest ++ [(k, Cache.freshEntry now k v
            (Cache.resolveTTL ttlOpt c.defaultTTL))]
      ∧ (Cache.set now k v ttlOpt c).entries.length = c.maxSize := by
  intro V c k v ttlOpt now fk fe rest he hlen hhas hfk
  have hrest : Cache.mapHas k rest = false := by
    rw [he] at hhas
    have := hhas
    simp only [Cache.mapHas, List.any_cons, Bool.or_eq_false_iff] at this
    simpa [Cache.mapHas] using this.2
  have hev : Cache.evictIfFull k c = rest := by
    unfold Cache.evictIfFull
    rw [hhas]
    have h1 : decide (c.maxSize ≤ c.entries.length) = true := by simp [hlen]
    rw [h1]
    simp only [Bool.not_false, Bool.and_self, if_true]
    rw [he]
    simp only [List.head?]
    rw [if_pos hfk]
    simp [Cache.mapDelete, List.eraseP_cons]
  have har : (if Cache.mapHas k (Cache.evictIfFull k c) then
      Cache.mapDelete k (Cache.evictIfFull k c) else Cache.evictIfFull k c)
      = rest := by
    rw [hev, hrest]
    simp
  constructor
  · rw [Cache.set_entries_eq, har]
    exact Cache.mapSet_fresh_append _ _ _ hrest
  · rw [Cache.set_entries_eq, har,
      Cache.mapSet_fresh_append _ _ _ hrest]
    rw [he] at hlen
    rw [List.length_append]
    simp only [List.length_cons, List.length_singleton, List.length_nil] at hlen ⊢
    omega

/-- Witness for the amended C3: inserting a fresh key into the full
capacity-one cache evicts exactly the resident entry. -/
theorem claim3_amended_lru_eviction_witness :
    (Cache.set 5 ("a") 7 none cacheC3b).entries
      = [] ++ [(("a"), Cache.freshEntry 5 ("a") 7
          (Cache.resolveTTL none cacheC3b.defaultTTL))]
    ∧ (Cache.set 5 ("a") 7 none cacheC3b).entries.length = cacheC3b.maxSize := by
  exact claim3_amended_lru_eviction Nat cacheC3b ("a") 7 none 5 ("b") entryC3b []
    (by decide) (by decide) (by decide) (by decide)

/-- C4 counterexample: the reported hit rate is not exactly hits over
total requests; after one hit and two misses the source rounds one third
to thirty-three hundredths. -/
theorem claim4_counterexample :
    cacheC4.hits = 1 ∧ cacheC4.misses = 2
    ∧ (Cache.getStats cacheC4).hitRate
        ≠ (cacheC4.hits : ℚ) / ((cacheC4.hits : ℚ) + (cacheC4.misses : ℚ)) := by
  decide

/-- C4 amended: the reported hit rate is hits over total requests rounded
to two decimals, and exactly zero when no get requests were counted. -/
theorem claim4_amended_hit_rate :
    ∀ (V : Type) (c : Cache.LRUCache V),
      (c.hits + c.misses = 0 → (Cache.getStats c).hitRate = 0)
      ∧ (0 < c.hits + c.misses →
        (Cache.getStats c).hitRate
          = safeRound ((c.hits : ℚ) / ((c.hits : ℚ) + (c.misses : ℚ)))) := by
  intro V c
  constructor
  · intro h
    simp only [Cache.getStats]
    rw [if_neg (by omega)]
    exact safeRound_zero
  · intro h
    simp only [Cache.getStats]
    rw [if_pos h]
    apply congrArg
    push_cast
    ring

/-- Witness for the amended C4 at a fresh cache and at the one-hit
two-miss cache. -/
theorem claim4_amended_hit_rate_witness :
    (Cache.getStats cacheC2).hitRate = 0
    ∧ (Cache.getStats cacheC4).hitRate
        = safeRound ((cacheC4.hits : ℚ)
            / ((cacheC4.hits : ℚ) + (cacheC4.misses : ℚ))) :=
  ⟨(claim4_amended_hit_rate Nat cacheC2).1 (by decide),
    (claim4_amended_hit_rate Nat cacheC4).2 (by decide)⟩

/-- C10: delete consults no clock at all, so TTL expiry cannot affect it:
it reports exactly whether the key was bound (expired or not), removes
that binding, preserves every other binding, and never changes the hit
or miss counters. -/
theorem claim10_delete_frame :
    ∀ (V : Type) (c : Cache.LRUCache V) (k : String),
      (c.entries.map Prod.fst).Nodup →
      ((Cache.delete k c).1 = Cache.mapHas k c.entries
      ∧ (Cache.delete k c).2.hits = c.hits
      ∧ (Cache.delete k c).2.misses = c.misses
      ∧ Cache.mapGet k (Cache.delete k c).2.entries = none
      ∧ ∀ k2, k2 ≠ k →
          Cache.mapGet k2 (Cache.delete k c).2.entries
            = Cache.mapGet k2 c.entries) := by
  intro V c k hnd
  refine ⟨rfl, rfl, rfl, ?_, ?_⟩
  · exact Cache.mapGet_eq_none_of_not_has k _
      (Cache.mapHas_mapDelete_self k c.entries hnd)
  · intro k2 h2
    exact Cache.mapGet_mapDelete_ne k k2 h2 c.entries

/-- Witness for C10 on a cache whose sole entry expired long ago: delete
still returns true, removes it, and leaves the counters alone. -/
theorem claim10_delete_frame_witness :
    (Cache.delete ("k") cacheC10).1 = true
    ∧ (Cache.delete ("k") cacheC10).2.hits = 3
    ∧ (Cache.delete ("k") cacheC10).2.misses = 4
    ∧ Cache.mapGet ("k") (Cache.delete ("k") cacheC10).2.entries = none := by
  have h := claim10_delete_frame Nat cacheC10 ("k") (by decide)
  refine ⟨?_, h.2.1, h.2.2.1, h.2.2.2.1⟩
  rw [h.1]
  decide

end ST

namespace ST

theorem jsTrim_ne_nil {l : List Char} {c : Char} (hc : c ∈ l)
    (hw : jsSpace c = false) : jsTrim l ≠ [] := by
  intro h
  unfold jsTrim at h
  rw [List.reverse_eq_nil_iff, List.dropWhile_eq_nil_iff] at h
  have h2 : ∀ x ∈ l.dropWhile jsSpace, jsSpace x = true := by
    intro x hx
    exact h x (List.mem_reverse.mpr hx)
  have h3 : jsSpace c = true := by
    rcases List.mem_append.mp
        ((List.takeWhile_append_dropWhile (p := jsSpace) (l := l)) ▸ hc)
      with h4 | h4
    · exact List.mem_takeWhile_imp h4
    · exact h2 c h4
  rw [h3] at hw
  cases hw

theorem stripCR_mem {l : List Char} {c : Char} (hc : c ∈ l)
    (hcr : c ≠ '\r') : c ∈ stripCR l := by
  unfold stripCR
  split
  case isTrue h =>
    have hne : l ≠ [] := by
      intro he
      rw [he] at h
      cases h
    have hl := List.dropLast_append_getLast hne
    have hlast : l.getLast hne = '\r' := by
      have h5 := List.getLast?_eq_getLast l hne
      rw [h5] at h
      exact Option.some.inj h
    rcases List.mem_append.mp (hl ▸ hc) with h1 | h1
    · exact h1
    · rw [List.mem_singleton] at h1
      exact absurd (h1.trans hlast) hcr
  case isFalse h => exact hc

theorem splitNL_ne_nil : ∀ cs : List Char, splitNL cs ≠ []
  | [] => by simp [splitNL]
  | c :: rest => by
    unfold splitNL
    split
    · simp
    · split <;> simp

theorem splitNL_cover : ∀ (cs : List Char) (c : Char), c ∈ cs → c ≠ '\n' →
    ∃ piece ∈ splitNL cs, c ∈ piece
  | [], c, hc, _ => absurd hc (List.not_mem_nil c)
  | c0 :: rest, c, hc, hnl => by
    unfold splitNL
    by_cases h0 : c0 = '\n'
    · rw [if_pos h0]
      have hcrest : c ∈ rest := by
        rcases List.mem_cons.mp hc with h | h
        · exact absurd (h.trans h0) hnl
        · exact h
      obtain ⟨p, hp, hcp⟩ := splitNL_cover rest c hcrest hnl
      exact ⟨p, List.mem_cons_of_mem _ hp, hcp⟩
    · rw [if_neg h0]
      rcases hsp : splitNL rest with _ | ⟨h1, t⟩
      · exact absurd hsp (splitNL_ne_nil rest)
      · rcases List.mem_cons.mp hc with hcc | hcrest
        · exact ⟨c0 :: h1, List.mem_cons_self _ _,
            by rw [hcc]; exact List.mem_cons_self _ _⟩
        · obtain ⟨p, hp, hcp⟩ := splitNL_cover rest c hcrest hnl
          rw [hsp] at hp
          rcases List.mem_cons.mp hp with hph | hpt
          · refine ⟨c0 :: h1, List.mem_cons_self _ _, ?_⟩
            rw [hph] at hcp
            exact List.mem_cons_of_mem _ hcp
          · exact ⟨p, List.mem_cons_of_mem _ hpt, hcp⟩

theorem toLines_ne_nil (p : String)
    (h : p.toList.any (fun c => !jsSpace c) = true) :
    Server.toLines p ≠ [] := by
  obtain ⟨c, hc, hcw⟩ := List.any_eq_true.mp h
  have hw : jsSpace c = false := by
    revert hcw
    cases jsSpace c <;> simp
  have hnl : c ≠ '\n' := by
    intro he
    rw [he] at hw
    simp [jsSpace] at hw
  have hcr : c ≠ '\r' := by
    intro he
    rw [he] at hw
    simp [jsSpace] at hw
  obtain ⟨piece, hpmem, hcp⟩ := splitNL_cover p.toList c hc hnl
  have hmem2 : c ∈ stripCR piece := stripCR_mem hcp hcr
  have htr : jsTrim (stripCR piece) ≠ [] := jsTrim_ne_nil hmem2 hw
  apply List.ne_nil_of_mem (a := String.mk (jsTrim (stripCR piece)))
  unfold Server.toLines
  apply List.mem_map_of_mem
  rw [List.mem_filter]
  refine ⟨List.mem_map_of_mem _ hpmem, by simpa using htr⟩

/-- C6 counterexample: the whitespace-only prompt wsPromptC6 passes the
length validation (between three and ten thousand characters), yet the
server drafter produces a specification with an empty instructions
sequence. -/
theorem claim6_counterexample :
    3 ≤ wsPromptC6.length ∧ wsPromptC6.length ≤ 10000
    ∧ (Server.draftFromText wsPromptC6 none).instructions = [] := by decide

/-- C6 amended: the engine drafter always produces exactly one instruction
entry, and the server drafter produces a non-empty instruction sequence
whenever the validated prompt contains at least one non-whitespace
character. -/
theorem claim6_amended_instructions :
    ∀ (p : String) (d : Option String),
      (Engine.draftFromText p d).instructions.length = 1
      ∧ (p.toList.any (fun c => !jsSpace c) = true →
        (Server.draftFromText p d).instructions ≠ []) := by
  intro p d
  refine ⟨rfl, ?_⟩
  intro h
  show Server.toLines p ≠ []
  exact toLines_ne_nil p h

/-- Witness for the amended C6 on an ordinary prompt. -/
theorem claim6_amended_instructions_witness :
    (Engine.draftFromText helloPrompt none).instructions.length = 1
    ∧ (Server.draftFromText helloPrompt none).instructions ≠ [] :=
  ⟨(claim6_amended_instructions helloPrompt none).1,
    (claim6_amended_instructions helloPrompt none).2 (by decide)⟩

end ST

namespace ST

/-- C5 is right about the intent but the code violates it: the engine
clarity function probes the four module-level structure regexes, which
carry the global flag, with RegExp.test; their lastIndex persists
between calls, so two identical consecutive invocations disagree.  On
txtC5 the first call earns the structure bonus (score fifty-five
hundredths) and the second does not (score one half); the first call
coincides with the stateless model, which is what every later call from
a reset state also computes. -/
theorem claim5_structure_regex_state_nondeterminism :
    (Engine.calculateClarityStateful txtC5 false none Engine.GState.init).1
        = 0.55
    ∧ (Engine.calculateClarityStateful txtC5 false none
        (Engine.calculateClarityStateful txtC5 false none
          Engine.GState.init).2).1 = 0.5
    ∧ (Engine.calculateClarityStateful txtC5 false none Engine.GState.init).1
        ≠ (Engine.calculateClarityStateful txtC5 false none
            (Engine.calculateClarityStateful txtC5 false none
              Engine.GState.init).2).1
    ∧ (Engine.calculateClarityStateful txtC5 false none Engine.GState.init).1
        = Engine.calculateClarity txtC5 false none := by decide

theorem vaguePenaltyOf_eq (cfg : ClarityConfig) (text : String) :
    Engine.vaguePenaltyOf cfg text
      = min ((Engine.vagueCountOf text : ℚ) * cfg.vagueWordPenalty)
          cfg.maxVagueWordPenalty := by
  simp only [Engine.vaguePenaltyOf]
  split
  case isTrue h =>
    have h1 : (0 : Nat) < getWordCount text := by
      have h2 := (Bool.and_eq_true _ _).mp h
      exact of_decide_eq_true h2.2
    have h2 : ((getWordCount text : ℚ)) ≠ 0 := by
      exact_mod_cast Nat.pos_iff_ne_zero.mp h1
    rw [div_mul_cancel₀ _ h2]
  case isFalse h => rfl

theorem vagueWordPenalty_eq (d : Option String) :
    (getScoringConfig d).clarity.vagueWordPenalty = 0.05 := by
  cases d with
  | none => rfl
  | some s =>
    simp only [getScoringConfig]
    split_ifs <;> rfl

set_option maxRecDepth 40000 in
/-- C7: with every other clarity signal held constant, a text with at
least as many matching vague-word patterns never scores higher; and the
concrete text containing the four vague terms very, good, quite and
nice scores strictly lower than the same text with them removed. -/
theorem claim7_vague_terms_never_increase_clarity :
    (∀ (t t2 : String) (hc hc2 : Bool) (d : Option String),
      3 ≤ t.length → 3 ≤ t2.length →
      Engine.clarityCountOf t = Engine.clarityCountOf t2 →
      measurementCount t = measurementCount t2 →
      Engine.verbCountOf t = Engine.verbCountOf t2 →
      Engine.sentencePenaltyOf (getScoringConfig d).clarity t
        = Engine.sentencePenaltyOf (getScoringConfig d).clarity t2 →
      Engine.hasStructureOf t = Engine.hasStructureOf t2 →
      Engine.questionCountOf t = Engine.questionCountOf t2 →
      Engine.domainCountOf d t = Engine.domainCountOf d t2 →
      Engine.vagueCountOf t ≤ Engine.vagueCountOf t2 →
      Engine.calculateClarity t2 hc2 d ≤ Engine.calculateClarity t hc d)
    ∧ Engine.calculateClarity txtC7vague false none
        < Engine.calculateClarity txtC7plain false none := by
  constructor
  · intro t t2 hc hc2 d hl hl2 hcl hme hve hse hst hqu hdo hva
    unfold Engine.calculateClarity
    rw [if_neg (by omega), if_neg (by omega)]
    apply safeRound_mono
    apply jsClamp01_mono
    unfold Engine.clarityScoreWith
    rw [vaguePenaltyOf_eq, vaguePenaltyOf_eq, hcl, hme, hve, hse, hst, hqu, hdo]
    have hp : (0 : ℚ) ≤ (getScoringConfig d).clarity.vagueWordPenalty := by
      rw [vagueWordPenalty_eq]
      norm_num
    have hmin :
        min ((Engine.vagueCountOf t : ℚ)
            * (getScoringConfig d).clarity.vagueWordPenalty)
          (getScoringConfig d).clarity.maxVagueWordPenalty
        ≤ min ((Engine.vagueCountOf t2 : ℚ)
            * (getScoringConfig d).clarity.vagueWordPenalty)
          (getScoringConfig d).clarity.maxVagueWordPenalty := by
      apply min_le_min _ le_rfl
      apply mul_le_mul_of_nonneg_right _ hp
      exact_mod_cast hva
    linarith
  · decide

/-- Witness for C7: the concrete pair discharges every held-constant
hypothesis, and the general theorem yields the inequality there. -/
theorem claim7_vague_terms_never_increase_clarity_witness :
    (3 ≤ txtC7plain.length ∧ 3 ≤ txtC7vague.length
      ∧ Engine.vagueCountOf txtC7plain ≤ Engine.vagueCountOf txtC7vague)
    ∧ Engine.calculateClarity txtC7vague false none
        ≤ Engine.calculateClarity txtC7plain false none :=
  ⟨⟨by decide, by decide, by decide⟩,
    claim7_vague_terms_never_increase_clarity.1 txtC7plain txtC7vague
      false false none (by decide) (by decide) (by decide) (by decide)
      (by decide) (by decide) (by decide) (by decide) (by decide) (by decide)⟩

/-- C8: every specification whose constraints field is the empty list
yields, from both gap detectors, exactly one issue that has severity
info and path at the constraints pointer. -/
theorem claim8_empty_constraints_single_info :
    ∀ spec : StructuralThinking, spec.constraints = some [] →
      ((Engine.detectGaps spec).1.countP infoConstraintP = 1
      ∧ (Server.detectGaps spec).1.countP infoConstraintP = 1) := by
  intro spec h
  obtain ⟨ver, itn, tit, ctx, ins, cons, io0, amb, met, no⟩ := spec
  simp only at h
  subst h
  constructor
  · simp only [Engine.detectGaps, List.isEmpty_nil]
    split_ifs <;> decide
  · simp only [Server.detectGaps, List.isEmpty_nil]
    split_ifs <;> decide

/-- Witness for C8 at a concrete specification with empty constraints. -/
theorem claim8_empty_constraints_single_info_witness :
    specC8.constraints = some []
    ∧ (Engine.detectGaps specC8).1.countP infoConstraintP = 1
    ∧ (Server.detectGaps specC8).1.countP infoConstraintP = 1 :=
  ⟨rfl, (claim8_empty_constraints_single_info specC8 rfl).1,
    (claim8_empty_constraints_single_info specC8 rfl).2⟩

/-- C9: drafting the input of scenario A with no domain yields intent
generate_code, exactly one instruction entry and markdown output
format, in both the engine and the server drafters. -/
theorem claim9_scenario_a :
    (Engine.draftFromText promptC9 none).intent = "generate_code"
    ∧ (Engine.draftFromText promptC9 none).instructions.length = 1
    ∧ (Engine.draftFromText promptC9 none).io.format = "markdown"
    ∧ (Server.draftFromText promptC9 none).intent = "generate_code"
    ∧ (Server.draftFromText promptC9 none).instructions.length = 1
    ∧ (Server.draftFromText promptC9 none).io.format = "markdown" := by
  decide

end ST

end RatSemireducible
